import Mathlib

/-!
Shallow embedding of the stock-tracker program (src/main.py) and proofs about
its backtest engine, fetch layer, price resolution and alert evaluation.

Numeric modelling: the program computes with Python floats.  We model a float
value as an exact rational extended with the IEEE special values NaN, +inf and
-inf (`PyF`).  Rounding is not modelled; the special-value propagation and
comparison rules (any comparison with NaN is false, inf arithmetic) are
modelled exactly, because the program's control flow depends on them
(`price <= 0` at src/main.py line 108, `x > 0` at line 100).

Time modelling: timestamps are natural numbers, ordered as calendar dates.
For the backtest engine, `pd.date_range(start, periods=n, freq=MS)` is
modelled with consecutive month starts one unit apart, and one year as 12
units (`dateRangeMS`, `yearBefore`); the as-of resolver works over arbitrary
Nat timestamps.
-/

/-- A Python float value: an exact rational, or one of the IEEE special
values NaN, +infinity, -infinity. -/
inductive PyF where
  | nan : PyF
  | inf : PyF
  | ninf : PyF
  | num : ℚ → PyF
  deriving DecidableEq, Repr

namespace PyF

/-- Float addition: NaN propagates, inf + (-inf) is NaN. -/
def add : PyF → PyF → PyF
  | nan, _ => nan
  | _, nan => nan
  | inf, ninf => nan
  | ninf, inf => nan
  | inf, _ => inf
  | _, inf => inf
  | ninf, _ => ninf
  | _, ninf => ninf
  | num a, num b => num (a + b)

/-- Float negation. -/
def neg : PyF → PyF
  | nan => nan
  | inf => ninf
  | ninf => inf
  | num a => num (-a)

/-- Float subtraction; in particular inf - inf is NaN. -/
def sub (a b : PyF) : PyF := add a (neg b)

/-- Float multiplication: NaN propagates, inf * 0 is NaN, signs as in IEEE. -/
def mul : PyF → PyF → PyF
  | nan, _ => nan
  | _, nan => nan
  | num a, num b => num (a * b)
  | inf, num b => if b = 0 then nan else if 0 < b then inf else ninf
  | num b, inf => if b = 0 then nan else if 0 < b then inf else ninf
  | ninf, num b => if b = 0 then nan else if 0 < b then ninf else inf
  | num b, ninf => if b = 0 then nan else if 0 < b then ninf else inf
  | inf, inf => inf
  | ninf, ninf => inf
  | inf, ninf => ninf
  | ninf, inf => ninf

/-- Float division.  NaN propagates; a finite value divided by an infinity is
zero; infinities over finite values keep IEEE signs.  Division by exactly
zero raises ZeroDivisionError in Python; that case is unreachable in the
backtest loop (the guard skips prices that compare `<= 0`), so it is mapped
to NaN here. -/
def div : PyF → PyF → PyF
  | nan, _ => nan
  | _, nan => nan
  | num a, num b => if b = 0 then nan else num (a / b)
  | num _, inf => num 0
  | num _, ninf => num 0
  | inf, num b => if b = 0 then nan else if 0 < b then inf else ninf
  | ninf, num b => if b = 0 then nan else if 0 < b then ninf else inf
  | inf, inf => nan
  | inf, ninf => nan
  | ninf, inf => nan
  | ninf, ninf => nan

/-- The Python comparison `x <= y` as a boolean: false whenever NaN is
involved. -/
def leB : PyF → PyF → Bool
  | nan, _ => false
  | _, nan => false
  | ninf, _ => true
  | _, ninf => false
  | _, inf => true
  | inf, _ => false
  | num a, num b => decide (a ≤ b)

/-- The Python test `x <= 0` (the skip guard at src/main.py line 108):
false for NaN, so a NaN price is NOT caught by the guard. -/
def le0 : PyF → Bool
  | nan => false
  | inf => false
  | ninf => true
  | num a => decide (a ≤ 0)

/-- The Python test `x > 0` (the plan validation at src/main.py line 100):
true for +infinity, false for NaN. -/
def gt0 : PyF → Bool
  | nan => false
  | inf => true
  | ninf => false
  | num a => decide (0 < a)

end PyF

/-- Helper for `asof`: scan the series keeping the close of the last point
whose timestamp is at or before `t`. -/
def asofGo (t : Nat) (acc : PyF) : List (Nat × ℚ) → PyF
  | [] => acc
  | (ts, c) :: rest => if ts ≤ t then asofGo t (PyF.num c) rest else asofGo t acc rest

/-- pandas `Series.asof(date)` on the Close series (src/main.py line 107):
the value of the last point whose timestamp is ≤ the requested date, NaN when
the series is empty or every timestamp is after the date. -/
def asof (s : List (Nat × ℚ)) (t : Nat) : PyF := asofGo t PyF.nan s

/-- `sp500['Close'].iloc[-1]` (src/main.py line 115): the final close of the
series.  `iloc[-1]` raises on an empty series, but the backtest loop never
evaluates it then (an empty series truncates the loop to zero iterations), so
the empty case is mapped to NaN. -/
def lastClose (s : List (Nat × ℚ)) : PyF :=
  match s.getLast? with
  | some p => PyF.num p.2
  | none => PyF.nan

/-- `pd.date_range(start, periods = n, freq = MS)` (src/main.py line 95):
the first days of `n` successive calendar months starting at `start`, in the
month-unit time model. -/
def dateRangeMS (start : Nat) : Nat → List Nat
  | 0 => []
  | n + 1 => start :: dateRangeMS (start + 1) n

/-- `timedelta(days = 365)` before a date (src/main.py line 91), i.e. one
year, which is 12 in the month-unit time model. -/
def yearBefore (t : Nat) : Nat := t - 12

/-- One row of the portfolio DataFrame built at src/main.py lines 117-125. -/
structure Entry where
  date : Nat
  amount : PyF
  price : PyF
  shares_bought : PyF
  total_invested : PyF
  current_value : PyF
  growth : PyF
  deriving DecidableEq, Repr

/-- The backtest loop (src/main.py lines 106-125).  The state is the running
`total_invested` and `total_shares`; alongside each appended row we also
record the value of the source's local variable `total_shares` at that point,
used to state the accumulation invariants. -/
def backtestLoop (sp500 : List (Nat × ℚ)) :
    List (Nat × PyF) → PyF → PyF → List (Entry × PyF)
  | [], _, _ => []
  | (date, amount) :: rest, total_invested, total_shares =>
    let price := asof sp500 date
    if price.le0 then
      backtestLoop sp500 rest total_invested total_shares
    else
      let shares_bought := amount.div price
      let total_shares' := total_shares.add shares_bought
      let total_invested' := total_invested.add amount
      let current_value := total_shares'.mul (lastClose sp500)
      let growth := current_value.sub total_invested'
      (⟨date, amount, price, shares_bought, total_invested', current_value, growth⟩,
        total_shares') :: backtestLoop sp500 rest total_invested' total_shares'

/-- The (date, amount) pairs the loop iterates over, with the truncation of
src/main.py lines 102-104: when the plan is longer than the series, the
period count is clipped to the series length. -/
def backtestPairs (variable_amounts : List PyF) (sp500 : List (Nat × ℚ))
    (start_date : Nat) : List (Entry × PyF) :=
  let months :=
    if variable_amounts.length > sp500.length then sp500.length
    else variable_amounts.length
  backtestLoop sp500 ((dateRangeMS start_date months).zip variable_amounts)
    (PyF.num 0) (PyF.num 0)

/-- `backtest_investment` (src/main.py lines 84-128), with the downloaded
reference series and derived start date as explicit inputs.  Validation
(line 100) rejects a plan unless every amount satisfies the Python test
`x > 0`; an invalid plan raises ValueError, modelled as `.error` with the
source's message. -/
def backtest_investment (variable_amounts : List PyF) (sp500 : List (Nat × ℚ))
    (start_date : Nat) : Except String (List Entry) :=
  if variable_amounts.all PyF.gt0 then
    Except.ok ((backtestPairs variable_amounts sp500 start_date).map Prod.fst)
  else
    Except.error "All investment amounts must be positive numbers."

/-- The successive values of the source's `total_shares` variable at each
appended ledger row of a run (the spec's cumulative_shares column). -/
def cumulativeShares (variable_amounts : List PyF) (sp500 : List (Nat × ℚ))
    (start_date : Nat) : List PyF :=
  (backtestPairs variable_amounts sp500 start_date).map Prod.snd

/-- The spec's wording of as-of resolution, for comparison with `asof`: the
close of the last point, in chronological order, whose timestamp is at or
before `t`; `none` when there is no such point. -/
def lastCloseOnOrBefore (t : Nat) : List (Nat × ℚ) → Option ℚ
  | [] => none
  | (ts, c) :: rest =>
    match lastCloseOnOrBefore t rest with
    | some c2 => some c2
    | none => if ts ≤ t then some c else none

/-- The ambient effects `backtest_investment` can reach: the wall clock
(src/main.py line 90), the provider download (line 92), and `entropy`
standing for any other ambient state (randomness, file system, ...) that the
function could in principle read but must not. -/
structure Env where
  now : Nat
  download : Nat → Nat → List (Nat × ℚ)
  entropy : Nat

/-- `backtest_investment` as the application runs it: the end date is the
current time, the start date is one year earlier, and the reference series
is downloaded for that range (src/main.py lines 90-92). -/
def runBacktestApp (env : Env) (amounts : List PyF) : Except String (List Entry) :=
  backtest_investment amounts (env.download (yearBefore env.now) env.now)
    (yearBefore env.now)

/-- One response of the provider to `stock.history(...)` (src/main.py line
143): either a returned series (possibly empty) or a raised provider
exception. -/
inductive Resp where
  | data (s : List (Nat × ℚ)) : Resp
  | exc (msg : String) : Resp
  deriving DecidableEq

/-- The per-symbol retry loop `for attempt in range(3)` of src/main.py lines
140-152, with `attempt` the current attempt index and the second argument the
number of attempts left.  A non-empty response is stored and the loop breaks;
an empty response just retries; exhausting the loop reaches the for/else of
line 153 with no series.  When `stock.history` raises, Python first evaluates
the handler clause `except yfinance.exceptions.YFException` (line 149); the
module imports the provider only as `yf` and never imports `time`, so the
name `yfinance` is unbound and matching the exception itself raises
NameError, which nothing catches: the call aborts before the handler body
(the print and `time.sleep(2 ** attempt)` of lines 150-152) can run.  The
returned pair carries the list of backoff sleeps actually performed, which
is therefore empty on every path that returns. -/
def fetchAttempts (responses : Nat → Resp) :
    Nat → Nat → Except String (Option (List (Nat × ℚ)) × List Nat)
  | _, 0 => Except.ok (none, [])
  | attempt, r + 1 =>
    match responses attempt with
    | Resp.data s =>
      if s.isEmpty then fetchAttempts responses (attempt + 1) r
      else Except.ok (some s, [])
    | Resp.exc _ => Except.error "NameError"

/-- The full retry loop for one symbol: three attempts starting at index 0. -/
def fetchSymbol (responses : Nat → Resp) :
    Except String (Option (List (Nat × ℚ)) × List Nat) :=
  fetchAttempts responses 0 3

/-- `fetch_stock_data` (src/main.py lines 130-155), with the provider
modelled as a function from symbol and attempt index to a response.  Returns
the `data_dict` mapping in insertion order (successful symbols only) and the
concatenated backoff sleeps; a NameError escaping one symbol's loop
propagates and aborts the whole call, discarding the partial `data_dict`. -/
def fetch_stock_data :
    List String → (String → Nat → Resp) →
      Except String (List (String × List (Nat × ℚ)) × List Nat)
  | [], _ => Except.ok ([], [])
  | t :: rest, source =>
    match fetchSymbol (source t) with
    | Except.error e => Except.error e
    | Except.ok r =>
      match fetch_stock_data rest source with
      | Except.error e => Except.error e
      | Except.ok others =>
        Except.ok
          ((match r.1 with
            | some s => (t, s) :: others.1
            | none => others.1),
           r.2 ++ others.2)

/-- Python `target_prices[ticker]` guarded by `ticker in target_prices`
(src/main.py lines 182-183), on a mapping modelled as an association list. -/
def lookupPrice (m : List (String × ℚ)) (t : String) : Option ℚ :=
  (m.find? (fun p => p.1 == t)).map Prod.snd

/-- The alert messages appended for one ticker (src/main.py lines 184-187):
one ABOVE message when the latest close is above the target, one BELOW
message when it is below, nothing on equality. -/
def alertsFor (ticker : String) (target latest : ℚ) : List String :=
  if target < latest then
    ["Alert: " ++ ticker ++ " price above target " ++ toString target ++ "!"]
  else if latest < target then
    ["Alert: " ++ ticker ++ " price below target " ++ toString target ++ "!"]
  else []

/-- `check_price_alerts` (src/main.py lines 173-188).  `iloc[-1]` on an empty
Close series raises IndexError, which propagates out of the call; this is
modelled as `.error "IndexError"`. -/
def check_price_alerts :
    List (String × List (Nat × ℚ)) → List (String × ℚ) → Except String (List String)
  | [], _ => Except.ok []
  | (ticker, series) :: rest, target_prices =>
    match lookupPrice target_prices ticker with
    | none => check_price_alerts rest target_prices
    | some target =>
      match series.getLast? with
      | none => Except.error "IndexError"
      | some p =>
        (check_price_alerts rest target_prices).map
          (fun as => alertsFor ticker target p.2 ++ as)

/-- A provider that returns an empty series on the first attempt and a
non-empty one on the second. -/
def respEmptyThenOk : Nat → Resp :=
  fun n => if n = 0 then Resp.data [] else Resp.data [(1, 10)]

/-- A provider that raises on the first two attempts and succeeds on the
third. -/
def respExcThenOk : Nat → Resp :=
  fun n => if n < 2 then Resp.exc "boom" else Resp.data [(3, 7)]

/-- A source for which symbol B always succeeds and every other symbol
always raises. -/
def srcAB : String → Nat → Resp :=
  fun t _ => if t = "B" then Resp.data [(1, 5)] else Resp.exc "down"

/-- A source that always returns an empty series. -/
def srcAllFail : String → Nat → Resp := fun _ _ => Resp.data []

/-- A source for which symbol B always succeeds and every other symbol
always returns an empty series. -/
def srcEmptyAOkB : String → Nat → Resp :=
  fun t _ => if t = "B" then Resp.data [(1, 5)] else Resp.data []

/-- Two app environments that agree on the clock and on the downloaded
series but differ in every other ambient state. -/
def env1 : Env := ⟨24, fun _ _ => [(12, 10)], 0⟩

/-- See `env1`. -/
def env2 : Env := ⟨24, fun _ _ => [(12, 10)], 37⟩

instance exceptDecEq {ε α : Type} [DecidableEq ε] [DecidableEq α] :
    DecidableEq (Except ε α) := fun x y =>
  match x, y with
  | Except.ok a, Except.ok b =>
    if h : a = b then isTrue (by rw [h]) else isFalse (by simp [h])
  | Except.error e, Except.error f =>
    if h : e = f then isTrue (by rw [h]) else isFalse (by simp [h])
  | Except.ok _, Except.error _ => isFalse (by simp)
  | Except.error _, Except.ok _ => isFalse (by simp)

/-- Claim C1, scenario: plan [100, 100, 100] against month-start closes
10, 20, 10 starting at the first month gives shares bought 10, 5, 10;
cumulative invested 100, 200, 300; running share totals 10, 15, 25; each
row's value is its share total times the latest close 10, the final value is
250 and the final unrealized gain is -50. -/
theorem C1_scenario :
    backtest_investment [PyF.num 100, PyF.num 100, PyF.num 100]
        [(1, 10), (2, 20), (3, 10)] 1 =
      Except.ok
        [⟨1, PyF.num 100, PyF.num 10, PyF.num 10, PyF.num 100, PyF.num 100, PyF.num 0⟩,
         ⟨2, PyF.num 100, PyF.num 20, PyF.num 5, PyF.num 200, PyF.num 150, PyF.num (-50)⟩,
         ⟨3, PyF.num 100, PyF.num 10, PyF.num 10, PyF.num 300, PyF.num 250, PyF.num (-50)⟩] ∧
    cumulativeShares [PyF.num 100, PyF.num 100, PyF.num 100]
        [(1, 10), (2, 20), (3, 10)] 1 =
      [PyF.num 10, PyF.num 15, PyF.num 25] := by
  norm_num [backtest_investment, backtestPairs, backtestLoop, cumulativeShares,
    dateRangeMS, asof, asofGo, lastClose, PyF.gt0, PyF.le0, PyF.add, PyF.mul,
    PyF.div, PyF.sub, PyF.neg]

/-- Claim C2 (code bug evaluation): a period whose price resolution finds no
point at or before the target date yields NaN, and the guard `price <= 0` is
false for NaN, so the period is NOT skipped: a ledger row full of NaN is
emitted and the NaN share total poisons every later row's value. -/
theorem C2_nan_not_skipped :
    backtest_investment [PyF.num 100, PyF.num 100] [(2, 10), (3, 20)] 1 =
      Except.ok
        [⟨1, PyF.num 100, PyF.nan, PyF.nan, PyF.num 100, PyF.nan, PyF.nan⟩,
         ⟨2, PyF.num 100, PyF.num 10, PyF.num 10, PyF.num 200, PyF.nan, PyF.nan⟩] := by
  norm_num [backtest_investment, backtestPairs, backtestLoop, dateRangeMS, asof,
    asofGo, lastClose, PyF.gt0, PyF.le0, PyF.add, PyF.mul, PyF.div, PyF.sub,
    PyF.neg]

/-- Claim C3 (counterexample): a run over an empty reference series returns
an empty ledger normally instead of failing with InsufficientData. -/
theorem C3_empty_series_returns_ok :
    backtest_investment [PyF.num 100] [] 5 = Except.ok [] := by
  norm_num [backtest_investment, backtestPairs, backtestLoop, dateRangeMS, PyF.gt0]

/-- Claim C3 (amended): for every plan of positive amounts, a run over an
empty reference series truncates the period count to zero and returns an
empty ledger as a normal result; no error is raised. -/
theorem C3_amended_empty_series (amounts : List PyF) (start : Nat)
    (h : amounts.all PyF.gt0 = true) :
    backtest_investment amounts [] start = Except.ok [] := by
  cases amounts with
  | nil => simp [backtest_investment, backtestPairs, backtestLoop, dateRangeMS]
  | cons a as =>
    simp [backtest_investment, backtestPairs, backtestLoop, dateRangeMS, h]

/-- Witness for `C3_amended_empty_series` at a concrete plan. -/
theorem C3_amended_empty_series_witness :
    backtest_investment [PyF.num 3] [] 0 = Except.ok [] :=
  C3_amended_empty_series [PyF.num 3] 0 (by norm_num [PyF.gt0])

/-- Claim C4 (code bug evaluation): with a valid plan and a non-empty
reference series whose every point lies after the contribution dates, all
resolved prices are NaN, the running share totals of the two emitted rows are
NaN, and NaN is not `<=` NaN, so cumulative shares are not non-decreasing
across the ledger. -/
theorem C4_cumulative_shares_not_monotone :
    cumulativeShares [PyF.num 100, PyF.num 100] [(5, 10), (6, 20)] 1 =
      [PyF.nan, PyF.nan] ∧
    PyF.leB PyF.nan PyF.nan = false := by
  constructor
  · norm_num [cumulativeShares, backtestPairs, backtestLoop, dateRangeMS, asof,
      asofGo, lastClose, PyF.le0, PyF.add, PyF.mul, PyF.div, PyF.sub, PyF.neg]
  · rfl

/-- Claim C5 (counterexample): an amount of +infinity satisfies the
validation test `x > 0`, so the run does not fail with InvalidPlan and a
ledger entry is produced for it. -/
theorem C5_infinite_amount_not_rejected :
    backtest_investment [PyF.inf] [(1, 10)] 1 =
      Except.ok [⟨1, PyF.inf, PyF.num 10, PyF.inf, PyF.inf, PyF.inf, PyF.nan⟩] := by
  norm_num [backtest_investment, backtestPairs, backtestLoop, dateRangeMS, asof,
    asofGo, lastClose, PyF.gt0, PyF.le0, PyF.add, PyF.mul, PyF.div, PyF.sub,
    PyF.neg]

/-- Claim C5 (amended): a plan containing an amount that fails the Python
test `x > 0` — zero, negative, -infinity or NaN — fails with the
InvalidPlan ValueError and no ledger entry is produced; +infinity is not
rejected. -/
theorem C5_amended_validation (amounts : List PyF) (sp500 : List (Nat × ℚ))
    (start : Nat) (h : ∃ x ∈ amounts, PyF.gt0 x = false) :
    backtest_investment amounts sp500 start =
      Except.error "All investment amounts must be positive numbers." := by
  have hall : amounts.all PyF.gt0 = false := by
    obtain ⟨x, hx, hfx⟩ := h
    exact List.all_eq_false.mpr ⟨x, hx, by simp [hfx]⟩
  simp [backtest_investment, hall]

/-- Witness for `C5_amended_validation` at a concrete zero amount. -/
theorem C5_amended_validation_witness :
    backtest_investment [PyF.num 0] [(1, 10)] 1 =
      Except.error "All investment amounts must be positive numbers." :=
  C5_amended_validation [PyF.num 0] [(1, 10)] 1
    ⟨PyF.num 0, by simp, by norm_num [PyF.gt0]⟩

/-- Claim C6 (counterexample): for a symbol whose source returns an empty
series on the first attempt and succeeds on the second (k = 1), the fetcher
returns the successful series but performs no backoff sleep at all, not the
single delay of base * 2 ^ 0 the claim requires: the only sleep in the
source sits in the exception handler body, which is unreachable (the handler
clause itself raises NameError), so an empty response retries without
delay. -/
theorem C6_no_backoff_on_empty_retry :
    fetchSymbol respEmptyThenOk = Except.ok (some [(1, 10)], []) ∧
    fetchSymbol respEmptyThenOk ≠ Except.ok (some [(1, 10)], [2 ^ 0]) := by
  constructor
  · rfl
  · decide

/-- Claim C6 (amended): for a symbol whose source returns an empty series on
the first k < 3 attempts and a non-empty series on attempt k + 1, the fetcher
returns that successful series having performed no backoff sleep; a provider
exception is not a retryable failure at all: the handler clause names the
unbound `yfinance`, so the first exception raises NameError and aborts the
call, again with no sleep. -/
theorem C6_amended_backoff (responses : Nat → Resp) (k : Nat)
    (s : List (Nat × ℚ)) (hk : k < 3) (hs : s ≠ [])
    (hsucc : responses k = Resp.data s) :
    ((∀ i, i < k → responses i = Resp.data []) →
      fetchSymbol responses = Except.ok (some s, [])) ∧
    (∀ m, responses 0 = Resp.exc m →
      fetchSymbol responses = Except.error "NameError") := by
  have hsE : s.isEmpty = false := by
    cases s with
    | nil => exact absurd rfl hs
    | cons a as => rfl
  constructor
  · intro hemp
    interval_cases k
    · simp [fetchSymbol, fetchAttempts, hsucc, hsE]
    · have h0 := hemp 0 (by omega)
      simp [fetchSymbol, fetchAttempts, h0, hsucc, hsE]
    · have h0 := hemp 0 (by omega)
      have h1 := hemp 1 (by omega)
      simp [fetchSymbol, fetchAttempts, h0, h1, hsucc, hsE]
  · intro m h0
    simp [fetchSymbol, fetchAttempts, h0]

/-- Witness for `C6_amended_backoff`: one empty-then-success provider that
returns its series with no sleeps, and one provider raising on the first
attempt, which aborts the call with NameError. -/
theorem C6_amended_backoff_witness :
    fetchSymbol respEmptyThenOk = Except.ok (some [(1, 10)], []) ∧
    fetchSymbol respExcThenOk = Except.error "NameError" := by
  constructor
  · exact (C6_amended_backoff respEmptyThenOk 1 [(1, 10)] (by omega) (by simp) rfl).1
      (by
        intro i hi
        have hz : i = 0 := by omega
        subst hz
        rfl)
  · exact (C6_amended_backoff respExcThenOk 2 [(3, 7)] (by omega) (by simp) rfl).2
      "boom" rfl

/-- Claim C7 (counterexample): fetching A then B where symbol A always
raises a provider exception and symbol B always succeeds does not return
B's entry: A's first exception becomes a NameError in the unbound handler
clause and aborts the whole call, so no result mapping is returned at
all — B's success is destroyed by A's failure. -/
theorem C7_exception_aborts_call :
    fetch_stock_data ["A", "B"] srcAB = Except.error "NameError" ∧
    ∀ m, fetch_stock_data ["A", "B"] srcAB ≠ Except.ok m := by
  refine ⟨rfl, fun m h => ?_⟩
  rw [show fetch_stock_data ["A", "B"] srcAB = Except.error "NameError" from rfl] at h
  exact Except.noConfusion h

/-- Claim C7 (amended): for sources whose failures are all empty responses
(so that no symbol's loop aborts), symbols are processed independently: the
call returns a mapping holding exactly the per-symbol outcomes of the
successful symbols in request order, a symbol that exhausts its three
attempts is simply absent, and when every symbol so fails the call returns
an empty mapping.  A provider exception for any symbol instead aborts the
whole call with NameError. -/
theorem C7_symbol_isolation_amended (tickers : List String)
    (source : String → Nat → Resp)
    (hok : ∀ t ∈ tickers, ∃ r, fetchSymbol (source t) = Except.ok r) :
    (∃ sleeps, fetch_stock_data tickers source =
        Except.ok
          (tickers.filterMap (fun t =>
            (match fetchSymbol (source t) with
             | Except.ok r => r.1
             | Except.error _ => none).map (fun s => (t, s))), sleeps)) ∧
    ((∀ t ∈ tickers, fetchSymbol (source t) = Except.ok (none, [])) →
      fetch_stock_data tickers source = Except.ok ([], [])) := by
  have hmain : ∀ ts : List String,
      (∀ t ∈ ts, ∃ r, fetchSymbol (source t) = Except.ok r) →
      ∃ sleeps, fetch_stock_data ts source =
        Except.ok
          (ts.filterMap (fun t =>
            (match fetchSymbol (source t) with
             | Except.ok r => r.1
             | Except.error _ => none).map (fun s => (t, s))), sleeps) := by
    intro ts
    induction ts with
    | nil =>
      intro _
      exact ⟨[], rfl⟩
    | cons t rest ih =>
      intro hok2
      obtain ⟨r, hr⟩ := hok2 t (List.mem_cons_self _ _)
      obtain ⟨sleeps, hrest⟩ := ih (fun u hu => hok2 u (List.mem_cons_of_mem _ hu))
      refine ⟨r.2 ++ sleeps, ?_⟩
      cases hval : r.1 with
      | none => simp [fetch_stock_data, hr, hrest, hval]
      | some sv => simp [fetch_stock_data, hr, hrest, hval]
  have hempty : ∀ ts : List String,
      (∀ t ∈ ts, fetchSymbol (source t) = Except.ok (none, [])) →
      fetch_stock_data ts source = Except.ok ([], []) := by
    intro ts
    induction ts with
    | nil =>
      intro _
      rfl
    | cons t rest ih =>
      intro hall
      have ht := hall t (List.mem_cons_self _ _)
      have hrest := ih (fun u hu => hall u (List.mem_cons_of_mem _ hu))
      simp [fetch_stock_data, ht, hrest]
  exact ⟨hmain tickers hok, hempty tickers⟩

/-- Witness for `C7_symbol_isolation_amended`: fetching A and B where A
always returns empty series and B succeeds yields only B's entry, and a
source returning empty for both symbols yields the empty mapping. -/
theorem C7_symbol_isolation_amended_witness :
    (∃ sleeps, fetch_stock_data ["A", "B"] srcEmptyAOkB =
        Except.ok ([("B", [(1, 5)])], sleeps)) ∧
    fetch_stock_data ["A", "B"] srcAllFail = Except.ok ([], []) := by
  constructor
  · obtain ⟨sleeps, hs⟩ := (C7_symbol_isolation_amended ["A", "B"] srcEmptyAOkB
      (by
        intro t ht
        cases ht with
        | head => exact ⟨(none, []), rfl⟩
        | tail _ h2 =>
          cases h2 with
          | head => exact ⟨(some [(1, 5)], []), rfl⟩
          | tail _ h3 => cases h3)).1
    exact ⟨sleeps, hs.trans rfl⟩
  · exact (C7_symbol_isolation_amended ["A", "B"] srcAllFail
      (by
        intro t ht
        cases ht with
        | head => exact ⟨(none, []), rfl⟩
        | tail _ h2 =>
          cases h2 with
          | head => exact ⟨(none, []), rfl⟩
          | tail _ h3 => cases h3)).2
      (by
        intro t ht
        cases ht with
        | head => rfl
        | tail _ h2 =>
          cases h2 with
          | head => rfl
          | tail _ h3 => cases h3)

/-- `asofGo` computes the close of the last point in list order whose
timestamp is at or before the target, falling back to the accumulator. -/
theorem asofGo_eq_lastCloseOnOrBefore (t : Nat) :
    ∀ (s : List (Nat × ℚ)) (acc : PyF),
      asofGo t acc s =
        (match lastCloseOnOrBefore t s with
         | some c => PyF.num c
         | none => acc) := by
  intro s
  induction s with
  | nil =>
    intro acc
    rfl
  | cons hd rest ih =>
    intro acc
    obtain ⟨ts, c⟩ := hd
    simp only [asofGo, lastCloseOnOrBefore]
    by_cases h : ts ≤ t
    · rw [if_pos h, ih]
      cases hrest : lastCloseOnOrBefore t rest with
      | some c2 => simp [hrest]
      | none => simp [hrest, h]
    · rw [if_neg h, ih]
      cases hrest : lastCloseOnOrBefore t rest with
      | some c2 => simp [hrest]
      | none => simp [hrest, h]

/-- `lastCloseOnOrBefore` yields nothing exactly when every point of the
series lies strictly after the target date. -/
theorem lastCloseOnOrBefore_eq_none (t : Nat) :
    ∀ s : List (Nat × ℚ),
      lastCloseOnOrBefore t s = none ↔ ∀ p ∈ s, t < p.1 := by
  intro s
  induction s with
  | nil => simp [lastCloseOnOrBefore]
  | cons hd rest ih =>
    obtain ⟨ts, c⟩ := hd
    simp only [lastCloseOnOrBefore]
    cases hrest : lastCloseOnOrBefore t rest with
    | some c2 =>
      constructor
      · intro h
        simp at h
      · intro h
        have hnone : lastCloseOnOrBefore t rest = none :=
          ih.mpr (fun p hp => h p (List.mem_cons_of_mem _ hp))
        rw [hnone] at hrest
        simp at hrest
    | none =>
      by_cases hts : ts ≤ t
      · rw [if_pos hts]
        constructor
        · intro h
          simp at h
        · intro h
          have := h (ts, c) (List.mem_cons_self _ _)
          omega
      · rw [if_neg hts]
        constructor
        · intro _ p hp
          rcases List.mem_cons.mp hp with heq | hmem
          · rw [heq]
            omega
          · exact ih.mp hrest p hmem
        · intro _
          rfl

/-- On a series with strictly increasing timestamps, a point at or before
the target whose timestamp dominates every other at-or-before point is the
one `lastCloseOnOrBefore` returns. -/
theorem lastCloseOnOrBefore_maximal (t : Nat) :
    ∀ s : List (Nat × ℚ),
      List.Pairwise (fun p q : Nat × ℚ => p.1 < q.1) s →
      ∀ p ∈ s, p.1 ≤ t → (∀ q ∈ s, q.1 ≤ t → q.1 ≤ p.1) →
        lastCloseOnOrBefore t s = some p.2 := by
  intro s
  induction s with
  | nil =>
    intro _ p hp
    cases hp
  | cons hd rest ih =>
    intro hpw p hp hpt hmax
    obtain ⟨hhd, hpwrest⟩ := List.pairwise_cons.mp hpw
    simp only [lastCloseOnOrBefore]
    rcases List.mem_cons.mp hp with heq | hmem
    · subst heq
      have hrest_none : lastCloseOnOrBefore t rest = none := by
        rw [lastCloseOnOrBefore_eq_none]
        intro q hq
        by_contra hq2
        push_neg at hq2
        have h1 := hmax q (List.mem_cons_of_mem _ hq) (by omega)
        have h2 := hhd q hq
        omega
      rw [hrest_none]
      simp [hpt]
    · have hsome : lastCloseOnOrBefore t rest = some p.2 :=
        ih hpwrest p hmem hpt (fun q hq hqt => hmax q (List.mem_cons_of_mem _ hq) hqt)
      rw [hsome]

/-- Claim C8: on a series with strictly increasing timestamps, the resolver
returns the close of the most recent point at or before the target date (a
point at or before the target whose timestamp dominates every other such
point), and NaN — pandas' not-available marker — when the series is empty
or every point lies after the target. -/
theorem C8_asof_resolution (s : List (Nat × ℚ)) (t : Nat)
    (hsorted : List.Pairwise (fun p q : Nat × ℚ => p.1 < q.1) s) :
    ((∀ p ∈ s, t < p.1) → asof s t = PyF.nan) ∧
    (∀ p ∈ s, p.1 ≤ t → (∀ q ∈ s, q.1 ≤ t → q.1 ≤ p.1) →
      asof s t = PyF.num p.2) := by
  constructor
  · intro h
    rw [show asof s t = asofGo t PyF.nan s from rfl,
      asofGo_eq_lastCloseOnOrBefore t s PyF.nan,
      (lastCloseOnOrBefore_eq_none t s).mpr h]
  · intro p hp hpt hmax
    rw [show asof s t = asofGo t PyF.nan s from rfl,
      asofGo_eq_lastCloseOnOrBefore t s PyF.nan,
      lastCloseOnOrBefore_maximal t s hsorted p hp hpt hmax]

/-- Witness for `C8_asof_resolution` on the spec's example series
[(Jan 1, 100), (Mar 1, 110)] in day numbers: Feb 15 resolves to 100 and
Dec 31 of the prior year resolves to not-available. -/
theorem C8_asof_resolution_witness :
    asof [(1, 100), (60, 110)] 46 = PyF.num 100 ∧
    asof [(1, 100), (60, 110)] 0 = PyF.nan := by
  have hpw : List.Pairwise (fun p q : Nat × ℚ => p.1 < q.1)
      [(1, 100), (60, 110)] := by
    simp [List.pairwise_cons]
  constructor
  · exact (C8_asof_resolution _ 46 hpw).2 (1, 100) (by simp) (by norm_num)
      (by
        intro q hq hqt
        rcases List.mem_cons.mp hq with heq | hq2
        · rw [heq]
        · rcases List.mem_cons.mp hq2 with heq2 | h3
          · rw [heq2] at hqt
            exact absurd hqt (by norm_num)
          · cases h3)
  · exact (C8_asof_resolution _ 0 hpw).1
      (by
        intro p hp
        rcases List.mem_cons.mp hp with heq | hp2
        · rw [heq]
          norm_num
        · rcases List.mem_cons.mp hp2 with heq2 | h3
          · rw [heq2]
            norm_num
          · cases h3)

/-- Claim C9: the ledger depends only on the plan, the downloaded reference
series and the clock reading that fixes the start date; two runs whose
environments agree on those — whatever their other ambient state — produce
identical ledgers. -/
theorem C9_deterministic (e1 e2 : Env) (amounts : List PyF)
    (hnow : e1.now = e2.now)
    (hseries : e1.download (yearBefore e1.now) e1.now =
      e2.download (yearBefore e2.now) e2.now) :
    runBacktestApp e1 amounts = runBacktestApp e2 amounts := by
  unfold runBacktestApp
  rw [hseries, hnow]

/-- Witness for `C9_deterministic`: two environments differing only in their
ambient entropy produce the same ledger. -/
theorem C9_deterministic_witness :
    runBacktestApp env1 [PyF.num 100] = runBacktestApp env2 [PyF.num 100] :=
  C9_deterministic env1 env2 [PyF.num 100] rfl rfl

/-- Claim C10 (counterexample): a symbol present in both mappings whose
series is empty makes the alert evaluator raise IndexError (`iloc[-1]` on an
empty series) instead of returning normally with no alert. -/
theorem C10_empty_series_raises :
    check_price_alerts [("A", [])] [("A", 100)] = Except.error "IndexError" := by
  rfl

/-- Claim C10 (amended): the alert evaluator returns normally whenever every
present series is non-empty; an empty series for a symbol present in both
mappings is not a representable no-alert case but raises IndexError. -/
theorem C10_amended_nonempty_ok (data_dict : List (String × List (Nat × ℚ)))
    (target_prices : List (String × ℚ))
    (h : ∀ p ∈ data_dict, p.2 ≠ []) :
    ∃ alerts, check_price_alerts data_dict target_prices = Except.ok alerts := by
  induction data_dict with
  | nil => exact ⟨[], rfl⟩
  | cons hd rest ih =>
    obtain ⟨alerts, ha⟩ := ih (fun p hp => h p (List.mem_cons_of_mem _ hp))
    obtain ⟨ticker, series⟩ := hd
    have hne : series ≠ [] := h (ticker, series) (List.mem_cons_self _ _)
    cases hlk : lookupPrice target_prices ticker with
    | none => exact ⟨alerts, by simp [check_price_alerts, hlk, ha]⟩
    | some target =>
      cases hgl : series.getLast? with
      | none => exact absurd (List.getLast?_eq_none_iff.mp hgl) hne
      | some p =>
        exact ⟨alertsFor ticker target p.2 ++ alerts,
          by simp [check_price_alerts, hlk, hgl, ha, Except.map]⟩

/-- Witness for `C10_amended_nonempty_ok` at a concrete non-empty series. -/
theorem C10_amended_nonempty_ok_witness :
    ∃ alerts, check_price_alerts [("X", [(1, 105)])] [("X", 100)] =
      Except.ok alerts :=
  C10_amended_nonempty_ok [("X", [(1, 105)])] [("X", 100)]
    (by
      intro p hp
      simp only [List.mem_singleton] at hp
      subst hp
      simp)
